import Mathlib

/-!
Shallow embedding of the Simulacra agent decision cycle
(`src/agents/decision_making.py`, `src/agents/action_outcomes.py`,
`src/agents/behavioral_economics.py`, `src/utils/types.py`).

Python floats are modelled as exact rationals (`ℚ`); the stochastic draws
(`np.random.*`) are passed in as explicit parameters, so every generator is a
deterministic function of the agent state, the action parameters and the draws.
The definitions below mirror the source functions; the theorems settle the
spec claims about them.
-/

namespace Simulacra

/-- `np.clip(x, lo, hi)`: `lo` if `x < lo`, else `hi` if `x > hi`, else `x`
(the upper bound wins when `lo > hi`, as in numpy). -/
def clip (x lo hi : ℚ) : ℚ := min hi (max lo x)

/-- Python `int(q)` on a float: truncation toward zero. -/
def pyInt (q : ℚ) : ℤ := if q < 0 then -(⌊-q⌋) else ⌊q⌋

/-- The four utility-component weights with their dataclass defaults
`financial=0.3, habit=0.15, addiction=0.2, psychological=0.35`. -/
structure UtilityWeights where
  financial : ℚ := 3/10
  habit : ℚ := 3/20
  addiction : ℚ := 1/5
  psychological : ℚ := 7/20
deriving DecidableEq, Repr

/-- The running total used by `UtilityWeights.normalize`. -/
def UtilityWeights.total (w : UtilityWeights) : ℚ :=
  w.financial + w.habit + w.addiction + w.psychological

/-- `UtilityWeights.normalize`: divide every field by the total when the total
is positive, otherwise leave the weights unchanged. -/
def UtilityWeights.normalize (w : UtilityWeights) : UtilityWeights :=
  if w.total > 0 then
    { financial := w.financial / w.total
      habit := w.habit / w.total
      addiction := w.addiction / w.total
      psychological := w.psychological / w.total }
  else w

/-- `UtilityCalculator._calculate_state_dependent_weights`
(src/agents/decision_making.py lines 110-138).  Inputs are the agent-state
values the function reads: `agent.get_max_craving()`, `wealth`,
`monthly_expenses` and `stress`.  (The dynamically patched `social` attribute
is not one of the four dataclass fields and is dropped, as the spec directs.) -/
def calculateStateDependentWeights (maxCraving wealth monthlyExpenses stress : ℚ) :
    UtilityWeights :=
  let weights : UtilityWeights := {}
  let weights :=
    if maxCraving > 1/2 then
      UtilityWeights.normalize
        { weights with
          addiction := weights.addiction * (1 + maxCraving)
          financial := weights.financial * (1/2) }
    else weights
  let weights :=
    if wealth < monthlyExpenses * (1/2) then
      UtilityWeights.normalize { weights with financial := weights.financial * 2 }
    else weights
  let weights :=
    if stress > 7/10 then
      UtilityWeights.normalize
        { weights with
          psychological := weights.psychological * (3/2)
          addiction := weights.addiction * (6/5) }
    else weights
  weights

/-- Invariant carried through the weight-adjustment branches: all four fields
are positive and they sum to 1. -/
def UtilityWeights.Good (w : UtilityWeights) : Prop :=
  0 < w.financial ∧ 0 < w.habit ∧ 0 < w.addiction ∧ 0 < w.psychological ∧ w.total = 1

/-- `ActionType` enum (src/utils/types.py). -/
inductive ActionType where
  | WORK | BEG | GAMBLE | DRINK | FIND_JOB | FIND_HOUSING | MOVE_HOME | REST
deriving DecidableEq, Repr

/-- `Action` dataclass.  The heterogeneous `parameters` dict is modelled by the
two optional entries the outcome generators actually read
(`bet_amount` and `units`). -/
structure Action where
  actionType : ActionType
  timeCost : ℚ
  betAmountParam : Option ℚ := none
  unitsParam : Option ℤ := none
deriving DecidableEq, Repr

/-- `np.max` over the (nonempty) utility array; 0 on the empty list. -/
def npMax : List ℚ → ℚ
  | [] => 0
  | x :: xs => xs.foldl max x

/-- The probability vector of `_softmax_selection` / `get_action_probabilities`:
subtract the max utility, exponentiate by `1/temperature`, normalize. -/
def softmaxProbs (E : ℚ → ℚ) (temperature : ℚ) (utilities : List ℚ) : List ℚ :=
  let m := npMax utilities
  let expUtilities := utilities.map fun u => E ((u - m) / temperature)
  let s := expUtilities.sum
  expUtilities.map fun e => e / s

/-- `np.random.choice(len l, p=probs)` given a uniform draw `u`: walk the
cumulative distribution, returning the first element whose cumulative
probability exceeds the draw. -/
def pickCDF : ℚ → List (Action × ℚ) → Option Action
  | _, [] => none
  | u, (a, p) :: rest => if u < p then some a else pickCDF (u - p) rest

/-- `DecisionMaker.choose_action` (src/agents/decision_making.py lines 360-392):
raises `ValueError` on an empty action list, otherwise evaluates every action
(the combined dual-process utility is the function `utility`), forms the softmax
distribution and samples from it with the uniform draw `draw`. -/
def chooseAction (E : ℚ → ℚ) (temperature : ℚ) (utility : Action → ℚ) (draw : ℚ)
    (availableActions : List Action) : Except String Action :=
  match availableActions with
  | [] => Except.error "No available actions to choose from"
  | a :: rest =>
    let actions := a :: rest
    let probs := softmaxProbs E temperature (actions.map utility)
    Except.ok ((pickCDF draw (actions.zip probs)).getD a)

/-- `WorkOutcome` dataclass (defaults: `success=True, message="", payment=0.0,
performance=1.0, stress_increase=0.0`). -/
structure WorkOutcome where
  success : Bool := true
  message : String := ""
  payment : ℚ := 0
  performance : ℚ := 1
  stressIncrease : ℚ := 0
deriving DecidableEq, Repr

/-- `GamblingOutcome` dataclass. -/
structure GamblingOutcome where
  success : Bool := true
  message : String := ""
  monetaryChange : ℚ := 0
  wasNearMiss : Bool := false
  psychologicalImpact : ℚ := 0
deriving DecidableEq, Repr

/-- `DrinkingOutcome` dataclass. -/
structure DrinkingOutcome where
  success : Bool := true
  message : String := ""
  cost : ℚ := 0
  unitsConsumed : ℤ := 0
  stressRelief : ℚ := 0
  moodChange : ℚ := 0
deriving DecidableEq, Repr

/-- `MoveOutcome` dataclass (`new_location` is an opaque plot id). -/
structure MoveOutcome where
  success : Bool := true
  message : String := ""
  moveCost : ℚ := 0
  stressChange : ℚ := 0
  newLocation : Option String := none
deriving DecidableEq, Repr

/-- `GamblingContext` dataclass (src/utils/types.py). -/
structure GamblingContext where
  recentOutcomes : List GamblingOutcome := []
  lossStreak : ℕ := 0
  totalLosses : ℚ := 0
  totalWins : ℚ := 0
  totalGames : ℕ := 0
deriving DecidableEq, Repr

/-- `InternalState` dataclass (src/utils/types.py). -/
structure InternalState where
  mood : ℚ := 0
  stress : ℚ := 0
  cognitiveLoad : ℚ := 0
  selfControlResource : ℚ := 1
  wealth : ℚ := 1000
  monthlyExpenses : ℚ := 800
deriving DecidableEq, Repr

/-- The bet actually wagered by `_generate_gambling_outcome`
(lines 154-167): the `bet_amount` parameter (default
`min(50, 0.1 * wealth)`), scaled by `1 + 0.1 * loss_streak` and capped at
wealth when the loss streak is at least 3. -/
def gamblingBetAmount (wealth : ℚ) (betParam : Option ℚ) (lossStreak : ℕ) : ℚ :=
  let betAmount := betParam.getD (min 50 (wealth * (1/10)))
  if lossStreak ≥ 3 then
    min (betAmount * (1 + (lossStreak : ℚ) * (1/10))) wealth
  else betAmount

/-- The `recent_outcomes` ring-buffer update of `_generate_gambling_outcome`:
append the recorded outcome and drop the oldest entry past 10. -/
def pushRecent (ctx : GamblingContext) (o : GamblingOutcome) : GamblingContext :=
  let buffer := ctx.recentOutcomes ++ [o]
  { ctx with recentOutcomes := if buffer.length > 10 then buffer.tail else buffer }

/-- `ActionOutcomeGenerator._generate_gambling_outcome` (lines 147-229).
Draws: `winRoll ~ U(0,1)`, `payout ~ U(1.05,1.3)`, `impactNoise ~ N(0,0.1)`.
Returns the outcome together with the mutated `GamblingContext`
(the generator itself updates `loss_streak`, `total_losses` and the
last-10 `recent_outcomes` buffer).  The code's `won` / `was_near_miss`
booleans are flattened into the three-way win / near-miss / loss case split
it in fact realizes. -/
def generateGamblingOutcome (wealth : ℚ) (betParam : Option ℚ) (ctx : GamblingContext)
    (winRoll payout impactNoise : ℚ) : GamblingOutcome × GamblingContext :=
  let betAmount := gamblingBetAmount wealth betParam ctx.lossStreak
  if betAmount > wealth then
    ({ success := false, message := "Insufficient funds for gambling",
       monetaryChange := 0 }, ctx)
  else
    let baseWinProb : ℚ := 45/100
    if winRoll < baseWinProb then
      let recorded : GamblingOutcome :=
        { success := true, monetaryChange := betAmount * payout - betAmount,
          wasNearMiss := false, psychologicalImpact := 3/10 + impactNoise }
      let ctx := pushRecent { ctx with lossStreak := 0 } recorded
      ({ recorded with message := "Won gambling" }, ctx)
    else
      let ctx1 := { ctx with
        lossStreak := ctx.lossStreak + 1
        totalLosses := ctx.totalLosses + betAmount }
      if winRoll < baseWinProb + 1/10 then
        let recorded : GamblingOutcome :=
          { success := true, monetaryChange := -betAmount, wasNearMiss := true,
            psychologicalImpact := -(1/10) + impactNoise }
        ({ recorded with message := "Near miss gambling" }, pushRecent ctx1 recorded)
      else
        let recorded : GamblingOutcome :=
          { success := true, monetaryChange := -betAmount, wasNearMiss := false,
            psychologicalImpact := -(2/10) + impactNoise }
        ({ recorded with message := "Lost gambling" }, pushRecent ctx1 recorded)

/-- `WorkPerformanceHistory` dataclass. -/
structure WorkPerformanceHistory where
  recentPerformances : List ℚ := []
  averagePerformance : ℚ := 1
  monthsEmployed : ℕ := 0
  warningsReceived : ℕ := 0
deriving DecidableEq, Repr

/-- `EmploymentInfo` dataclass (fields the generators read). -/
structure EmploymentInfo where
  jobQuality : ℚ := 1/2
  baseSalary : ℚ := 2000
  performanceHistory : WorkPerformanceHistory := {}
deriving DecidableEq, Repr

/-- `ActionOutcomeGenerator._generate_work_outcome` (lines 87-145).  Draws:
`perfNoise ~ N(1, 0.1)` (multiplies performance), `stressNoise ~ N(0, 0.02)`.
Fails without touching any state when the agent has no employment. -/
def generateWorkOutcome (employment : Option EmploymentInfo)
    (stress withdrawalSeverity mood timeCost perfNoise stressNoise : ℚ) : WorkOutcome :=
  match employment with
  | none =>
    { success := false, message := "Cannot work without employment", payment := 0 }
  | some emp =>
    let basePerformance : ℚ := 1
    let basePerformance :=
      if emp.performanceHistory.recentPerformances.isEmpty then basePerformance
      else (7/10) * basePerformance + (3/10) * emp.performanceHistory.averagePerformance
    let performance := basePerformance - stress * (3/10) - withdrawalSeverity * (4/10) +
      mood * (1/10)
    let performance := clip performance (1/10) (3/2)
    let performance := clip (performance * perfNoise) (1/10) (3/2)
    let payment := emp.baseSalary * performance * (timeCost / 160)
    let stressIncrease := max 0 (1/20 + stressNoise)
    let stressIncrease :=
      if performance < 7/10 then stressIncrease + (7/10 - performance) * (2/10)
      else stressIncrease
    { success := true, payment := payment, performance := performance,
      stressIncrease := stressIncrease, message := "Worked" }

/-- `ActionOutcomeGenerator._generate_drinking_outcome` (lines 231-289).
Draws: `stressNoise ~ N(0,0.1)`, `moodNoise` the additive mood noise,
`moodDampen ~ U(0.5,1)` (applied only in the high-addiction, low-tolerance
branch).  Fails when zero units are affordable. -/
def generateDrinkingOutcome (wealth : ℚ) (unitsParam : Option ℤ)
    (districtWealth toleranceLevel stock : ℚ)
    (stressNoise moodNoise moodDampen : ℚ) : DrinkingOutcome :=
  let units : ℤ := unitsParam.getD 2
  let costPerUnit : ℚ := 8 * (1/2 + districtWealth)
  let totalCost : ℚ := (units : ℚ) * costPerUnit
  let affordable : ℤ := pyInt (wealth / costPerUnit)
  if totalCost > wealth ∧ affordable = 0 then
    { success := false, message := "Cannot afford alcohol", cost := 0 }
  else
    let units := if totalCost > wealth then affordable else units
    let totalCost := (units : ℚ) * costPerUnit
    let toleranceFactor := 1 - toleranceLevel * (7/10)
    let stressRelief := max 0 ((3/10) * (units : ℚ) * toleranceFactor + stressNoise)
    let moodChange :=
      if stock < 3/10 then (2/10) * (units : ℚ) * toleranceFactor + moodNoise
      else
        let m := (1/10) * (units : ℚ) * toleranceFactor + moodNoise
        if toleranceFactor < 1/2 then m * moodDampen else m
    { success := true, cost := totalCost, unitsConsumed := units,
      stressRelief := stressRelief, moodChange := moodChange, message := "Consumed" }

/-- `ActionOutcomeGenerator._generate_move_outcome` (lines 419-450).  Draws:
`costNoise ~ U(0.8,1.5)` (multiplies the 200 base cost),
`stressNoise ~ N(0,0.05)`.  Fails when the cost exceeds wealth. -/
def generateMoveOutcome (wealth : ℚ) (costNoise stressNoise : ℚ)
    (target : Option String) : MoveOutcome :=
  let moveCost := 200 * costNoise
  if moveCost > wealth then
    { success := false, message := "Cannot afford moving costs", moveCost := 0 }
  else
    { success := true, moveCost := moveCost, stressChange := 1/10 + stressNoise,
      newLocation := target, message := "Moved" }

/-- `HabitFormationModule.update_habit_stock` (lines 297-314):
exponential smoothing `λ·current + (1−λ)·consumption`. -/
def updateHabitStock (currentStock consumption : ℚ) (lambdaParam : ℚ := 8/10) : ℚ :=
  lambdaParam * currentStock + (1 - lambdaParam) * consumption

/-- `AddictionModule.calculate_tolerance_effect` (lines 383-399):
`base_effect * (1 - tolerance_level * 0.8)`. -/
def calculateToleranceEffect (baseEffect toleranceLevel : ℚ) : ℚ :=
  baseEffect * (1 - toleranceLevel * (8/10))

/-- `AddictionModule.update_addiction_stock` (lines 401-428):
`min(max_stock, current*decay_rate + consumption*0.1*(1-current))`. -/
def updateAddictionStock (currentStock consumption : ℚ)
    (decayRate : ℚ := 93/100) (maxStock : ℚ := 1) : ℚ :=
  let decayedStock := currentStock * decayRate
  let increase := consumption * (1/10) * (1 - currentStock)
  min maxStock (decayedStock + increase)

/-- `GamblingBiasModule.apply_gamblers_fallacy` (lines 218-243): identity for
streaks of at most 2, otherwise add `bias_strength * 0.1 * (streak - 2)` and
cap at 0.95. -/
def applyGamblersFallacy (objectiveProbability : ℚ) (lossStreak : ℕ)
    (biasStrength : ℚ) : ℚ :=
  if lossStreak ≤ 2 then objectiveProbability
  else
    let biasFactor := biasStrength * (1/10) * ((lossStreak : ℚ) - 2)
    min (95/100) (objectiveProbability + biasFactor)

/-- `StateUpdater._apply_gambling_outcome` (lines 544-581).  Returns the new
internal state, the new gambling habit stock and the new gambling context.
Note: when the post-update wealth is 0 the Python line
`abs(monetary_change) / wealth` raises `ZeroDivisionError`; here `ℚ` division
by zero yields 0. -/
def applyGamblingOutcome (s : InternalState) (habitGambling : ℚ)
    (ctx : GamblingContext) (o : GamblingOutcome) :
    InternalState × ℚ × GamblingContext :=
  if o.success = false then (s, habitGambling, ctx)
  else
    let wealth := max 0 (s.wealth + o.monetaryChange)
    let mood := clip (s.mood + o.psychologicalImpact) (-1) 1
    let habitGambling := updateHabitStock habitGambling 1
    let selfControl := max 0 (s.selfControlResource - 15/100)
    let stress :=
      if o.monetaryChange < 0 then
        min 1 (s.stress + min (2/10) (|o.monetaryChange| / wealth))
      else s.stress
    let ctx := { ctx with totalGames := ctx.totalGames + 1 }
    let ctx :=
      if o.monetaryChange > 0 then { ctx with totalWins := ctx.totalWins + o.monetaryChange }
      else { ctx with totalLosses := ctx.totalLosses + |o.monetaryChange| }
    ({ s with
        wealth := wealth, mood := mood, stress := stress
        selfControlResource := selfControl }, habitGambling, ctx)

/-- `StateUpdater._apply_move_outcome` (lines 685-696): subtract the move cost
(clamped at 0) and add the stress change, capped above at 1 — the code applies
`min(1, ·)` only, with no lower clamp on stress. -/
def applyMoveOutcome (s : InternalState) (o : MoveOutcome) : InternalState :=
  if o.success = false then s
  else
    let wealth := max 0 (s.wealth - o.moveCost)
    let stress := min 1 (s.stress + o.stressChange)
    { s with wealth := wealth, stress := stress }

/-- The bounds of C6 on an internal state: wealth ≥ 0, stress ∈ [0,1],
mood ∈ [-1,1], self-control ∈ [0,1]. -/
def InternalState.InBounds (s : InternalState) : Prop :=
  0 ≤ s.wealth ∧ 0 ≤ s.stress ∧ s.stress ≤ 1 ∧ -1 ≤ s.mood ∧ s.mood ≤ 1 ∧
    0 ≤ s.selfControlResource ∧ s.selfControlResource ≤ 1

/-- Iterating `update_addiction_stock` with zero consumption at the default
decay rate 0.93 and default `max_stock = 1`. -/
def decayIter (s : ℚ) : ℕ → ℚ
  | 0 => s
  | n + 1 => updateAddictionStock (decayIter s n) 0

/-- The non-monotonicity asserted by C10: some pair of ordered probabilities on
which `apply_gamblers_fallacy` inverts the order (for some streak and bias). -/
def GamblersFallacyNonMonotone : Prop :=
  ∃ (lossStreak : ℕ) (biasStrength p q : ℚ), p ≤ q ∧
    applyGamblersFallacy q lossStreak biasStrength <
      applyGamblersFallacy p lossStreak biasStrength

/-! ### Theorems -/

lemma UtilityWeights.normalize_good {w : UtilityWeights}
    (hf : 0 < w.financial) (hh : 0 < w.habit) (ha : 0 < w.addiction)
    (hp : 0 < w.psychological) : w.normalize.Good := by
  have htot : 0 < w.total := by
    unfold UtilityWeights.total; linarith
  unfold UtilityWeights.normalize
  rw [if_pos htot]
  refine ⟨div_pos hf htot, div_pos hh htot, div_pos ha htot, div_pos hp htot, ?_⟩
  unfold UtilityWeights.total at htot ⊢
  field_simp

lemma calculateStateDependentWeights_good (maxCraving wealth monthlyExpenses stress : ℚ) :
    (calculateStateDependentWeights maxCraving wealth monthlyExpenses stress).Good := by
  have base_good : (({} : UtilityWeights)).Good := by
    refine ⟨by norm_num, by norm_num, by norm_num, by norm_num, ?_⟩
    unfold UtilityWeights.total
    norm_num
  have step1 :
      (if maxCraving > 1/2 then
        UtilityWeights.normalize
          { ({} : UtilityWeights) with
            addiction := ({} : UtilityWeights).addiction * (1 + maxCraving)
            financial := ({} : UtilityWeights).financial * (1/2) }
      else ({} : UtilityWeights)).Good := by
    split
    · next hc =>
      apply UtilityWeights.normalize_good
      · exact mul_pos base_good.1 (by norm_num)
      · exact base_good.2.1
      · exact mul_pos base_good.2.2.1 (by linarith)
      · exact base_good.2.2.2.1
    · exact base_good
  set w1 := (if maxCraving > 1/2 then
        UtilityWeights.normalize
          { ({} : UtilityWeights) with
            addiction := ({} : UtilityWeights).addiction * (1 + maxCraving)
            financial := ({} : UtilityWeights).financial * (1/2) }
      else ({} : UtilityWeights)) with hw1
  have step2 :
      (if wealth < monthlyExpenses * (1/2) then
        UtilityWeights.normalize { w1 with financial := w1.financial * 2 }
      else w1).Good := by
    split
    · apply UtilityWeights.normalize_good
      · exact mul_pos step1.1 (by norm_num)
      · exact step1.2.1
      · exact step1.2.2.1
      · exact step1.2.2.2.1
    · exact step1
  set w2 := (if wealth < monthlyExpenses * (1/2) then
        UtilityWeights.normalize { w1 with financial := w1.financial * 2 }
      else w1) with hw2
  have step3 :
      (if stress > 7/10 then
        UtilityWeights.normalize
          { w2 with
            psychological := w2.psychological * (3/2)
            addiction := w2.addiction * (6/5) }
      else w2).Good := by
    split
    · apply UtilityWeights.normalize_good
      · exact step2.1
      · exact step2.2.1
      · exact mul_pos step2.2.2.1 (by norm_num)
      · exact mul_pos step2.2.2.2.1 (by norm_num)
    · exact step2
  exact step3

/-- C1: for every agent state (every combination of craving, financial-pressure
and stress triggers in `_calculate_state_dependent_weights`), the four fields of
the returned `UtilityWeights` are non-negative and sum to exactly 1. -/
theorem state_dependent_weights_normalized (maxCraving wealth monthlyExpenses stress : ℚ) :
    0 ≤ (calculateStateDependentWeights maxCraving wealth monthlyExpenses stress).financial ∧
    0 ≤ (calculateStateDependentWeights maxCraving wealth monthlyExpenses stress).habit ∧
    0 ≤ (calculateStateDependentWeights maxCraving wealth monthlyExpenses stress).addiction ∧
    0 ≤ (calculateStateDependentWeights maxCraving wealth monthlyExpenses
          stress).psychological ∧
    (calculateStateDependentWeights maxCraving wealth monthlyExpenses stress).financial +
      (calculateStateDependentWeights maxCraving wealth monthlyExpenses stress).habit +
      (calculateStateDependentWeights maxCraving wealth monthlyExpenses stress).addiction +
      (calculateStateDependentWeights maxCraving wealth monthlyExpenses
        stress).psychological = 1 := by
  obtain ⟨h1, h2, h3, h4, h5⟩ :=
    calculateStateDependentWeights_good maxCraving wealth monthlyExpenses stress
  exact ⟨le_of_lt h1, le_of_lt h2, le_of_lt h3, le_of_lt h4, h5⟩

lemma foldl_max_mem (xs : List ℚ) : ∀ a : ℚ, xs.foldl max a = a ∨ xs.foldl max a ∈ xs := by
  induction xs with
  | nil => intro a; exact Or.inl rfl
  | cons y ys ih =>
    intro a
    rw [List.foldl_cons]
    rcases ih (max a y) with h | h
    · rw [h]
      rcases le_total a y with hy | hy
      · rw [max_eq_right hy]
        exact Or.inr (List.mem_cons_self y ys)
      · rw [max_eq_left hy]
        exact Or.inl rfl
    · exact Or.inr (List.mem_cons_of_mem y h)

lemma sum_map_div (l : List ℚ) (s : ℚ) : (l.map fun e => e / s).sum = l.sum / s := by
  induction l with
  | nil => simp
  | cons x xs ih => simp [ih, add_div]

lemma softmaxProbs_sum_one (E : ℚ → ℚ) (T : ℚ) (us : List ℚ)
    (hE : ∀ x, 0 < E x) (hne : us ≠ []) : (softmaxProbs E T us).sum = 1 := by
  unfold softmaxProbs
  have hpos : 0 < (us.map fun u => E ((u - npMax us) / T)).sum := by
    apply List.sum_pos
    · intro x hx
      simp only [List.mem_map] at hx
      obtain ⟨u, _, rfl⟩ := hx
      exact hE _
    · simpa using hne
  rw [sum_map_div, div_self (ne_of_gt hpos)]

/-- C2: for every nonempty utility list, the softmax-derived probabilities of
the Decision Maker are non-negative and sum to exactly 1, and a single-action
list gets probability exactly 1.  `E` stands for the exponential, assumed
positive as `Real.exp` is. -/
theorem softmax_probabilities_valid (E : ℚ → ℚ) (T : ℚ) (us : List ℚ)
    (hE : ∀ x, 0 < E x) (hne : us ≠ []) :
    (∀ p ∈ softmaxProbs E T us, 0 ≤ p) ∧ (softmaxProbs E T us).sum = 1 ∧
      (∀ u : ℚ, us = [u] → softmaxProbs E T us = [1]) := by
  refine ⟨?_, softmaxProbs_sum_one E T us hE hne, ?_⟩
  · intro p hp
    unfold softmaxProbs at hp
    simp only [List.mem_map] at hp
    obtain ⟨e, ⟨u, _, rfl⟩, rfl⟩ := hp
    have hs : 0 < (us.map fun u => E ((u - npMax us) / T)).sum := by
      apply List.sum_pos
      · intro x hx
        simp only [List.mem_map] at hx
        obtain ⟨v, _, rfl⟩ := hx
        exact hE _
      · simpa using hne
    exact le_of_lt (div_pos (hE _) hs)
  · intro u hu
    subst hu
    unfold softmaxProbs npMax
    simp only [List.foldl_nil, List.map_cons, List.map_nil, List.sum_cons, List.sum_nil,
      add_zero]
    rw [div_self (ne_of_gt (hE _))]

/-- Witness for C2 at `E = fun _ => 1`, `T = 1`, `us = [0]`. -/
theorem softmax_probabilities_valid_witness :
    (∀ p ∈ softmaxProbs (fun _ => 1) 1 [0], 0 ≤ p) ∧
      (softmaxProbs (fun _ => 1) 1 [0]).sum = 1 ∧
      (∀ u : ℚ, ([0] : List ℚ) = [u] → softmaxProbs (fun _ => 1) 1 [0] = [1]) :=
  softmax_probabilities_valid (fun _ => 1) 1 [0] (fun _ => one_pos) (by simp)

lemma pickCDF_mem : ∀ (u : ℚ) (pairs : List (Action × ℚ)) (a : Action),
    pickCDF u pairs = some a → a ∈ pairs.map Prod.fst := by
  intro u pairs
  induction pairs generalizing u with
  | nil => intro a h; simp [pickCDF] at h
  | cons hd tl ih =>
    intro a h
    unfold pickCDF at h
    split at h
    · cases h
      simp
    · right
      exact ih (u - hd.2) a h

/-- C5: `choose_action` returns the "No available actions" error exactly when
the action list is empty, and on every nonempty list it returns one of the
listed actions. -/
theorem choose_action_error_iff_empty (E : ℚ → ℚ) (T : ℚ) (utility : Action → ℚ)
    (draw : ℚ) (availableActions : List Action) :
    ((∃ msg, chooseAction E T utility draw availableActions = Except.error msg) ↔
      availableActions = []) ∧
    (∀ a, chooseAction E T utility draw availableActions = Except.ok a →
      a ∈ availableActions) := by
  constructor
  · constructor
    · intro ⟨msg, hmsg⟩
      cases availableActions with
      | nil => rfl
      | cons x xs => simp [chooseAction] at hmsg
    · intro h
      subst h
      exact ⟨"No available actions to choose from", rfl⟩
  · intro a ha
    cases availableActions with
    | nil => simp [chooseAction] at ha
    | cons x xs =>
      simp only [chooseAction, Except.ok.injEq] at ha
      rcases hopt : pickCDF draw ((x :: xs).zip
          (softmaxProbs E T ((x :: xs).map utility))) with _ | b
      · rw [hopt] at ha
        simp only [Option.getD_none] at ha
        subst ha
        exact List.mem_cons_self x xs
      · rw [hopt] at ha
        simp only [Option.getD_some] at ha
        subst ha
        have hmem := pickCDF_mem _ _ _ hopt
        simp only [List.mem_map] at hmem
        obtain ⟨⟨a', p⟩, hzip, rfl⟩ := hmem
        exact List.of_mem_zip hzip |>.1

/-- Witness for C5 on the empty list and on a singleton action list. -/
theorem choose_action_error_iff_empty_witness :
    (∃ msg, chooseAction (fun _ => 1) 1 (fun _ => 0) 0 [] = Except.error msg) ∧
    ({ actionType := ActionType.REST, timeCost := 4 } : Action) ∈
      [({ actionType := ActionType.REST, timeCost := 4 } : Action)] := by
  constructor
  · exact (choose_action_error_iff_empty (fun _ => 1) 1 (fun _ => 0) 0 []).1.2 rfl
  · refine (choose_action_error_iff_empty (fun _ => 1) 1 (fun _ => 0) 0
      [{ actionType := ActionType.REST, timeCost := 4 }]).2
      { actionType := ActionType.REST, timeCost := 4 } ?_
    norm_num [chooseAction, softmaxProbs, npMax, pickCDF]

lemma decayIter_eq (s : ℚ) (hs0 : 0 ≤ s) (hs1 : s ≤ 1) :
    ∀ n : ℕ, decayIter s n = (93/100 : ℚ) ^ n * s := by
  intro n
  induction n with
  | zero => simp [decayIter]
  | succ n ih =>
    have hpow : (93/100 : ℚ) ^ n ≤ 1 := pow_le_one₀ (by norm_num) (by norm_num)
    have hpow' : (0 : ℚ) ≤ (93/100 : ℚ) ^ n := pow_nonneg (by norm_num) n
    have hle : (93/100 : ℚ) ^ n * s * (93/100) + 0 * (1/10) * (1 - (93/100) ^ n * s) ≤ 1 := by
      nlinarith
    show updateAddictionStock (decayIter s n) 0 = _
    rw [ih]
    unfold updateAddictionStock
    rw [min_eq_right hle]
    ring

/-- C7: the default-parameter `update_addiction_stock` maps `[0,1] × [0,∞)`
into `[0,1]`, and iterating it with zero consumption from any positive stock
yields a strictly decreasing sequence that converges to 0. -/
theorem update_addiction_stock_bounds_and_decay :
    (∀ s c : ℚ, 0 ≤ s → s ≤ 1 → 0 ≤ c →
      0 ≤ updateAddictionStock s c ∧ updateAddictionStock s c ≤ 1) ∧
    (∀ s : ℚ, 0 < s → s ≤ 1 →
      (∀ n : ℕ, decayIter s (n + 1) < decayIter s n) ∧
      (∀ ε : ℚ, 0 < ε → ∃ N : ℕ, ∀ n : ℕ, N ≤ n → decayIter s n < ε)) := by
  constructor
  · intro s c hs0 hs1 hc
    unfold updateAddictionStock
    constructor
    · apply le_min (by norm_num)
      have h1 : 0 ≤ s * (93/100) := by nlinarith
      have h2 : 0 ≤ c * (1/10) * (1 - s) := by nlinarith
      linarith
    · exact min_le_left _ _
  · intro s hs0 hs1
    constructor
    · intro n
      rw [decayIter_eq s (le_of_lt hs0) hs1, decayIter_eq s (le_of_lt hs0) hs1]
      have hpow : (0 : ℚ) < (93/100 : ℚ) ^ n := pow_pos (by norm_num) n
      calc (93/100 : ℚ) ^ (n + 1) * s = (93/100 : ℚ) ^ n * s * (93/100) := by ring
        _ < (93/100 : ℚ) ^ n * s * 1 := by
            apply mul_lt_mul_of_pos_left (by norm_num) (mul_pos hpow hs0)
        _ = (93/100 : ℚ) ^ n * s := by ring
    · intro ε hε
      obtain ⟨N, hN⟩ := exists_pow_lt_of_lt_one hε (show (93/100 : ℚ) < 1 by norm_num)
      refine ⟨N, fun n hn => ?_⟩
      rw [decayIter_eq s (le_of_lt hs0) hs1]
      have h1 : (93/100 : ℚ) ^ n ≤ (93/100 : ℚ) ^ N :=
        pow_le_pow_of_le_one (by norm_num) (by norm_num) hn
      have h2 : (0 : ℚ) < (93/100 : ℚ) ^ n := pow_pos (by norm_num) n
      nlinarith

/-- Witness for C7 at stock 1/2, consumption 0, and tolerance `ε = 1/100`. -/
theorem update_addiction_stock_bounds_and_decay_witness :
    (0 ≤ updateAddictionStock (1/2) 0 ∧ updateAddictionStock (1/2) 0 ≤ 1) ∧
      decayIter (1/2) 1 < decayIter (1/2) 0 ∧
      (∃ N : ℕ, ∀ n : ℕ, N ≤ n → decayIter (1/2) n < 1/100) :=
  ⟨update_addiction_stock_bounds_and_decay.1 (1/2) 0 (by norm_num) (by norm_num)
      (by norm_num),
   (update_addiction_stock_bounds_and_decay.2 (1/2) (by norm_num) (by norm_num)).1 0,
   (update_addiction_stock_bounds_and_decay.2 (1/2) (by norm_num) (by norm_num)).2
      (1/100) (by norm_num)⟩

/-- C8 counterexample: for the negative base effect −1 and tolerance levels
`0 ≤ 1`, `calculate_tolerance_effect` is strictly increasing, not
non-increasing: `f(−1, 1) = −1/5 > −1 = f(−1, 0)`. -/
theorem tolerance_effect_not_antitone_counterexample :
    (0 : ℚ) ≤ 1 ∧
      calculateToleranceEffect (-1) 0 < calculateToleranceEffect (-1) 1 := by
  norm_num [calculateToleranceEffect]

/-- C8 amended: for every non-negative base effect, `calculate_tolerance_effect`
is non-increasing in the tolerance level. -/
theorem tolerance_effect_antitone_of_nonneg (baseEffect t₁ t₂ : ℚ)
    (hb : 0 ≤ baseEffect) (h : t₁ ≤ t₂) :
    calculateToleranceEffect baseEffect t₂ ≤ calculateToleranceEffect baseEffect t₁ := by
  unfold calculateToleranceEffect
  nlinarith

/-- Witness for the amended C8 at base 1, tolerances 0 ≤ 1. -/
theorem tolerance_effect_antitone_of_nonneg_witness :
    calculateToleranceEffect 1 1 ≤ calculateToleranceEffect 1 0 :=
  tolerance_effect_antitone_of_nonneg 1 0 1 (by norm_num) (by norm_num)

lemma applyGamblersFallacy_mono (lossStreak : ℕ) (b p q : ℚ) (h : p ≤ q) :
    applyGamblersFallacy p lossStreak b ≤ applyGamblersFallacy q lossStreak b := by
  unfold applyGamblersFallacy
  split
  · exact h
  · exact min_le_min (le_refl _) (by linarith)

/-- C10 counterexample: the non-monotonicity claimed by C10 never happens —
for every fixed loss streak and bias strength, `apply_gamblers_fallacy` is
monotone non-decreasing in the probability argument. -/
theorem gamblers_fallacy_nonmonotone_iff_false : GamblersFallacyNonMonotone ↔ False := by
  constructor
  · rintro ⟨s, b, p, q, hpq, hlt⟩
    exact absurd hlt (not_lt.mpr (applyGamblersFallacy_mono s b p q hpq))
  · intro h
    exact h.elim

/-- C10 amended: for probability above 0.95, streak at least 3 and positive
bias, `apply_gamblers_fallacy` returns exactly 0.95, strictly below its input —
the cap can lower, not only bound, the perceived probability — yet the function
is monotone non-decreasing in the probability argument for fixed streak and
bias. -/
theorem gamblers_fallacy_cap (p : ℚ) (lossStreak : ℕ) (biasStrength : ℚ)
    (hp : 95/100 < p) (hs : 3 ≤ lossStreak) (hb : 0 < biasStrength) :
    applyGamblersFallacy p lossStreak biasStrength = 95/100 ∧
      applyGamblersFallacy p lossStreak biasStrength < p ∧
      ∀ q₁ q₂ : ℚ, q₁ ≤ q₂ →
        applyGamblersFallacy q₁ lossStreak biasStrength ≤
          applyGamblersFallacy q₂ lossStreak biasStrength := by
  have hcast : (3 : ℚ) ≤ (lossStreak : ℚ) := by exact_mod_cast hs
  have hkey : applyGamblersFallacy p lossStreak biasStrength = 95/100 := by
    unfold applyGamblersFallacy
    rw [if_neg (by omega)]
    apply min_eq_left
    have hpos : 0 < biasStrength * (1/10) * ((lossStreak : ℚ) - 2) := by
      apply mul_pos (mul_pos hb (by norm_num))
      linarith
    linarith
  refine ⟨hkey, ?_, fun q₁ q₂ h => applyGamblersFallacy_mono lossStreak biasStrength q₁ q₂ h⟩
  rw [hkey]
  exact hp

/-- Witness for the amended C10 at `p = 0.96`, streak 3, bias 1. -/
theorem gamblers_fallacy_cap_witness :
    applyGamblersFallacy (96/100) 3 1 = 95/100 ∧
      applyGamblersFallacy (96/100) 3 1 < 96/100 ∧
      ∀ q₁ q₂ : ℚ, q₁ ≤ q₂ →
        applyGamblersFallacy q₁ 3 1 ≤ applyGamblersFallacy q₂ 3 1 :=
  gamblers_fallacy_cap (96/100) 3 1 (by norm_num) (by norm_num) (by norm_num)

lemma generateGamblingOutcome_fail (wealth : ℚ) (betParam : Option ℚ)
    (ctx : GamblingContext) (winRoll payout impactNoise : ℚ)
    (h : wealth < gamblingBetAmount wealth betParam ctx.lossStreak) :
    generateGamblingOutcome wealth betParam ctx winRoll payout impactNoise =
      ({ success := false, message := "Insufficient funds for gambling",
         monetaryChange := 0 }, ctx) := by
  simp only [generateGamblingOutcome, gt_iff_lt]
  rw [if_pos h]

/-- C3 counterexample: wealth 50, requested bet 100, loss streak 3.  The scaled
bet `100 * 1.3 = 130` is capped at the wealth 50, so the affordability check
passes and the gamble proceeds (`success = true`, wagering 50) — the requested
bet exceeded wealth yet no failed outcome is returned. -/
theorem gambling_overbet_succeeds_counterexample :
    (50 : ℚ) < 100 ∧
      (generateGamblingOutcome 50 (some 100) { lossStreak := 3 } (1/2) (6/5) 0).1.success
        = true ∧
      (generateGamblingOutcome 50 (some 100) { lossStreak := 3 } (1/2) (6/5) 0).1.monetaryChange
        = -50 := by
  have hbet : gamblingBetAmount 50 (some 100)
      ({ lossStreak := 3 } : GamblingContext).lossStreak = 50 := by
    unfold gamblingBetAmount
    simp only [Option.getD_some]
    rw [if_pos (by norm_num)]
    norm_num [min_def]
  refine ⟨by norm_num, ?_, ?_⟩ <;>
  · simp only [generateGamblingOutcome, gt_iff_lt, hbet]
    norm_num

/-- C3 amended: the bet actually wagered never exceeds current wealth, and a
requested bet exceeding wealth yields a failed outcome with zero monetary
change when the loss streak is below 3; at streak ≥ 3 the scaled bet is instead
capped at wealth and the gamble proceeds. -/
theorem gambling_bet_never_exceeds_wealth (wealth : ℚ) (betParam : Option ℚ)
    (ctx : GamblingContext) (winRoll payout impactNoise : ℚ) :
    ((generateGamblingOutcome wealth betParam ctx winRoll payout impactNoise).1.success
        = true →
      gamblingBetAmount wealth betParam ctx.lossStreak ≤ wealth) ∧
    (∀ b : ℚ, ctx.lossStreak < 3 → betParam = some b → wealth < b →
      (generateGamblingOutcome wealth betParam ctx winRoll payout impactNoise).1.success
          = false ∧
      (generateGamblingOutcome wealth betParam ctx winRoll payout impactNoise).1.monetaryChange
          = 0) := by
  by_cases h : wealth < gamblingBetAmount wealth betParam ctx.lossStreak
  · constructor
    · intro hsucc
      exfalso
      rw [generateGamblingOutcome_fail wealth betParam ctx winRoll payout impactNoise h]
        at hsucc
      exact Bool.false_ne_true hsucc
    · intro b hstreak hbp hwb
      rw [generateGamblingOutcome_fail wealth betParam ctx winRoll payout impactNoise h]
      exact ⟨rfl, rfl⟩
  · constructor
    · intro _
      exact not_lt.mp h
    · intro b hstreak hbp hwb
      exfalso
      apply h
      unfold gamblingBetAmount
      rw [hbp]
      simp only [Option.getD_some]
      rw [if_neg (by omega)]
      exact hwb

/-- Witness for the amended C3: wealth 20 with requested bet 50 at streak 0
fails with zero monetary change; the conclusion's first part at wealth 100. -/
theorem gambling_bet_never_exceeds_wealth_witness :
    ((generateGamblingOutcome 20 (some 50) {} (1/2) (6/5) 0).1.success = false ∧
      (generateGamblingOutcome 20 (some 50) {} (1/2) (6/5) 0).1.monetaryChange = 0) ∧
    gamblingBetAmount 100 (some 50) ({} : GamblingContext).lossStreak ≤ 100 := by
  have hbet : gamblingBetAmount 100 (some 50) ({} : GamblingContext).lossStreak = 50 := by
    unfold gamblingBetAmount
    simp only [Option.getD_some]
    rw [if_neg (by decide)]
  have hs : (generateGamblingOutcome 100 (some 50) {} (1/2) (6/5) 0).1.success = true := by
    simp only [generateGamblingOutcome, gt_iff_lt, hbet]
    norm_num
  exact ⟨(gambling_bet_never_exceeds_wealth 20 (some 50) {} (1/2) (6/5) 0).2
      50 (by decide) rfl (by norm_num),
    (gambling_bet_never_exceeds_wealth 100 (some 50) {} (1/2) (6/5) 0).1 hs⟩

/-- C9: on a losing roll (`win_roll ≥ 0.45`) with an affordable non-negative
bet, the generator itself already adds the bet to `total_losses` and increments
`loss_streak`, and applying the generated outcome once through
`StateUpdater._apply_gambling_outcome` adds `|monetary_change| = bet` to
`total_losses` again: one generated-and-once-applied loss raises
`total_losses` by exactly twice the bet. -/
theorem gambling_loss_double_counted (wealth : ℚ) (betParam : Option ℚ)
    (ctx : GamblingContext) (s : InternalState) (habitGambling : ℚ)
    (winRoll payout impactNoise : ℚ)
    (hbet : gamblingBetAmount wealth betParam ctx.lossStreak ≤ wealth)
    (hbet0 : 0 ≤ gamblingBetAmount wealth betParam ctx.lossStreak)
    (hroll : 45/100 ≤ winRoll) :
    (generateGamblingOutcome wealth betParam ctx winRoll payout impactNoise).2.totalLosses
        = ctx.totalLosses + gamblingBetAmount wealth betParam ctx.lossStreak ∧
    (generateGamblingOutcome wealth betParam ctx winRoll payout impactNoise).2.lossStreak
        = ctx.lossStreak + 1 ∧
    (applyGamblingOutcome s habitGambling
        (generateGamblingOutcome wealth betParam ctx winRoll payout impactNoise).2
        (generateGamblingOutcome wealth betParam ctx winRoll payout impactNoise).1
      ).2.2.totalLosses
        = ctx.totalLosses + 2 * gamblingBetAmount wealth betParam ctx.lossStreak := by
  have hnotwin : ¬ (winRoll < 45/100) := not_lt.mpr hroll
  have key : (generateGamblingOutcome wealth betParam ctx winRoll payout
        impactNoise).1.success = true ∧
      (generateGamblingOutcome wealth betParam ctx winRoll payout
        impactNoise).1.monetaryChange =
        -(gamblingBetAmount wealth betParam ctx.lossStreak) ∧
      (generateGamblingOutcome wealth betParam ctx winRoll payout
        impactNoise).2.totalLosses =
        ctx.totalLosses + gamblingBetAmount wealth betParam ctx.lossStreak ∧
      (generateGamblingOutcome wealth betParam ctx winRoll payout
        impactNoise).2.lossStreak = ctx.lossStreak + 1 := by
    simp only [generateGamblingOutcome, gt_iff_lt]
    rw [if_neg (not_lt.mpr hbet)]
    by_cases hnm : winRoll < 45/100 + 1/10
    · rw [if_neg hnotwin, if_pos hnm]
      exact ⟨rfl, rfl, rfl, rfl⟩
    · rw [if_neg hnotwin, if_neg hnm]
      exact ⟨rfl, rfl, rfl, rfl⟩
  obtain ⟨hsucc, hmon, hloss, hstreak⟩ := key
  refine ⟨hloss, hstreak, ?_⟩
  have hsneg : ¬ ((generateGamblingOutcome wealth betParam ctx winRoll payout
      impactNoise).1.success = false) := by
    rw [hsucc]
    simp
  have hmneg : ¬ ((generateGamblingOutcome wealth betParam ctx winRoll payout
      impactNoise).1.monetaryChange > 0) := by
    rw [hmon]
    exact not_lt.mpr (neg_nonpos.mpr hbet0)
  have happly : (applyGamblingOutcome s habitGambling
      (generateGamblingOutcome wealth betParam ctx winRoll payout impactNoise).2
      (generateGamblingOutcome wealth betParam ctx winRoll payout impactNoise).1
    ).2.2.totalLosses =
      (generateGamblingOutcome wealth betParam ctx winRoll payout
        impactNoise).2.totalLosses +
      |(generateGamblingOutcome wealth betParam ctx winRoll payout
        impactNoise).1.monetaryChange| := by
    simp only [applyGamblingOutcome]
    rw [if_neg hsneg, if_neg hmneg]
  rw [happly, hloss, hmon, abs_neg, abs_of_nonneg hbet0]
  ring

/-- Witness for C9: wealth 100, bet 10, empty context, losing roll 1/2 — the
context holds 10 of losses after generation and 20 after one application. -/
theorem gambling_loss_double_counted_witness :
    (generateGamblingOutcome 100 (some 10) {} (1/2) (6/5) 0).2.totalLosses
        = ({} : GamblingContext).totalLosses + gamblingBetAmount 100 (some 10) 0 ∧
    (generateGamblingOutcome 100 (some 10) {} (1/2) (6/5) 0).2.lossStreak
        = ({} : GamblingContext).lossStreak + 1 ∧
    (applyGamblingOutcome {} 0
        (generateGamblingOutcome 100 (some 10) {} (1/2) (6/5) 0).2
        (generateGamblingOutcome 100 (some 10) {} (1/2) (6/5) 0).1).2.2.totalLosses
        = ({} : GamblingContext).totalLosses + 2 * gamblingBetAmount 100 (some 10) 0 :=
  gambling_loss_double_counted 100 (some 10) {} {} 0 (1/2) (6/5) 0
    (by decide) (by decide) (by norm_num)

/-- C4 counterexample: the failed `WorkOutcome` of an unemployed agent is not
fully zeroed — the `performance` field keeps its dataclass default 1.0. -/
theorem failed_work_outcome_not_zeroed_counterexample :
    (generateWorkOutcome none 0 0 0 160 1 0).success = false ∧
      (generateWorkOutcome none 0 0 0 160 1 0).performance = 1 ∧
      (generateWorkOutcome none 0 0 0 160 1 0).performance ≠ 0 := by
  refine ⟨rfl, rfl, ?_⟩
  norm_num [generateWorkOutcome]

/-- C4 amended: each constraint-check failure (work without employment, an
unaffordable gamble, zero affordable drink units, an unaffordable move) returns
a total function value — never an exception — with `success = false`, an
explanatory message and zeroed numeric effect fields (the failed `WorkOutcome`
keeps its default `performance = 1`, which is never applied), and leaves all
agent state unchanged: the work, drinking and move generators read but never
write state, and the gambling generator returns its context argument
untouched. -/
theorem constraint_failures_zeroed_and_pure
    (stress withdrawalSeverity mood timeCost perfNoise stressNoise : ℚ)
    (gWealth : ℚ) (betParam : Option ℚ) (ctx : GamblingContext)
    (winRoll payout impactNoise : ℚ)
    (dWealth : ℚ) (unitsParam : Option ℤ) (districtWealth toleranceLevel stock : ℚ)
    (dStressNoise moodNoise moodDampen : ℚ)
    (mWealth costNoise mStressNoise : ℚ) (target : Option String) :
    (generateWorkOutcome none stress withdrawalSeverity mood timeCost perfNoise stressNoise
      = { success := false, message := "Cannot work without employment", payment := 0,
          performance := 1, stressIncrease := 0 }) ∧
    (gWealth < gamblingBetAmount gWealth betParam ctx.lossStreak →
      generateGamblingOutcome gWealth betParam ctx winRoll payout impactNoise
        = ({ success := false, message := "Insufficient funds for gambling",
             monetaryChange := 0, wasNearMiss := false, psychologicalImpact := 0 }, ctx)) ∧
    ((((unitsParam.getD 2 : ℤ) : ℚ) * (8 * (1/2 + districtWealth)) > dWealth ∧
        pyInt (dWealth / (8 * (1/2 + districtWealth))) = 0) →
      generateDrinkingOutcome dWealth unitsParam districtWealth toleranceLevel stock
          dStressNoise moodNoise moodDampen
        = { success := false, message := "Cannot afford alcohol", cost := 0,
            unitsConsumed := 0, stressRelief := 0, moodChange := 0 }) ∧
    (200 * costNoise > mWealth →
      generateMoveOutcome mWealth costNoise mStressNoise target
        = { success := false, message := "Cannot afford moving costs", moveCost := 0,
            stressChange := 0, newLocation := none }) := by
  refine ⟨rfl, ?_, ?_, ?_⟩
  · intro h
    exact generateGamblingOutcome_fail gWealth betParam ctx winRoll payout impactNoise h
  · intro h
    simp only [generateDrinkingOutcome]
    rw [if_pos h]
  · intro h
    simp only [generateMoveOutcome]
    rw [if_pos h]

/-- Witness for the amended C4: the four failure cases at concrete inputs
(unemployed work; wealth 20 against bet 50; wealth 5 against two 8-dollar
drinks; wealth 100 against a 200 move cost). -/
theorem constraint_failures_zeroed_and_pure_witness :
    (generateWorkOutcome none 0 0 0 160 1 0
      = { success := false, message := "Cannot work without employment", payment := 0,
          performance := 1, stressIncrease := 0 }) ∧
    (generateGamblingOutcome 20 (some 50) {} (1/2) (6/5) 0
      = ({ success := false, message := "Insufficient funds for gambling",
           monetaryChange := 0, wasNearMiss := false, psychologicalImpact := 0 },
         ({} : GamblingContext))) ∧
    (generateDrinkingOutcome 5 none (1/2) 0 0 0 0 1
      = { success := false, message := "Cannot afford alcohol", cost := 0,
          unitsConsumed := 0, stressRelief := 0, moodChange := 0 }) ∧
    (generateMoveOutcome 100 1 0 none
      = { success := false, message := "Cannot afford moving costs", moveCost := 0,
          stressChange := 0, newLocation := none }) := by
  obtain ⟨h1, h2, h3, h4⟩ := constraint_failures_zeroed_and_pure
    0 0 0 160 1 0 20 (some 50) {} (1/2) (6/5) 0 5 none (1/2) 0 0 0 0 1 100 1 0 none
  refine ⟨h1, h2 ?_, h3 ?_, h4 ?_⟩
  · show (20 : ℚ) < gamblingBetAmount 20 (some 50) ({} : GamblingContext).lossStreak
    unfold gamblingBetAmount
    simp only [Option.getD_some]
    rw [if_neg (by decide)]
    norm_num
  · constructor
    · norm_num
    · norm_num [pyInt]
  · norm_num

/-- C6 failing case: the move generator draws `stressNoise = -0.15` (within
the support of `N(0, 0.05)`), giving a successful move outcome with
`stress_change = -0.05`; `_apply_move_outcome` adds it with only the upper
`min(1, ·)` clamp, so an agent at stress 0 ends at stress −0.05 < 0 — the
state bounds are not preserved, contradicting the clamping described in the
spec and applied by every other branch of the StateUpdater. -/
theorem move_outcome_negative_stress :
    generateMoveOutcome 1000 1 (-(3/20)) none
      = { success := true, moveCost := 200, stressChange := -(1/20),
          newLocation := none, message := "Moved" } ∧
    InternalState.InBounds {} ∧
    (applyMoveOutcome {} (generateMoveOutcome 1000 1 (-(3/20)) none)).stress
      = -(1/20) ∧
    ¬ InternalState.InBounds
        (applyMoveOutcome {} (generateMoveOutcome 1000 1 (-(3/20)) none)) := by
  have hgen : generateMoveOutcome 1000 1 (-(3/20)) none
      = { success := true, moveCost := 200, stressChange := -(1/20),
          newLocation := none, message := "Moved" } := by
    simp only [generateMoveOutcome, gt_iff_lt]
    rw [if_neg (by norm_num)]
    simp only [MoveOutcome.mk.injEq]
    norm_num
  have happ : (applyMoveOutcome {} (generateMoveOutcome 1000 1 (-(3/20)) none)).stress
      = -(1/20) := by
    rw [hgen]
    simp only [applyMoveOutcome]
    rw [if_neg (by simp)]
    show min 1 (({} : InternalState).stress + -(1/20)) = -(1/20)
    norm_num [min_def]
  refine ⟨hgen, ?_, happ, ?_⟩
  · refine ⟨by norm_num, by norm_num, by norm_num, by norm_num, by norm_num,
      by norm_num, by norm_num⟩
  · intro h
    have h0 : (0 : ℚ) ≤ -(1/20) := happ ▸ h.2.1
    norm_num at h0

end Simulacra

